import Mathlib

/-!
Verification development for the parallel succinct-tree construction and
forward-search queries of `succinct_tree.c` (SEA 2015 parallel construction of
succinct trees).

The C code is shallowly embedded as executable Lean functions:

* the bit sequence `B` is a total function `Nat → Bool` (`bit_array_get_bit`);
  positions past the end of the input read as `false`, modelling the zero
  padding of the external packed bit array (reads past the allocation are
  undefined behaviour in C; the model makes them deterministic zeros);
* the arrays `e_prime`, `m_prime`, `M_prime`, `n_prime` are `List Int` of the
  exact allocated lengths (`calloc` zero-initialised); a write out of bounds is
  dropped (`List.set` is the identity there) and a read out of bounds yields 0
  (`getD`), again making the C undefined behaviour deterministic;
* `int8_t` and `int16_t` arithmetic is integer arithmetic wrapped into
  `[-128,127]` / `[-32768,32767]` via `i8` / `i16` (two's-complement wrap);
* floating-point `ceil(log(x)/log(k))` and `pow` in the source are modelled by
  their exact mathematical values;
* the Cilk parallel loops write disjoint index ranges (one writer per index,
  barrier between passes), so they are modelled by sequential folds in
  increasing thread/subtree order.
-/

set_option maxRecDepth 20000
set_option maxHeartbeats 4000000

namespace SEA

/-- Chunk size, `unsigned int s = 256` in the source. -/
def s : Nat := 256

/-- Arity of the min-max tree, `unsigned int k = 2` in the source. -/
def k : Nat := 2

/-- Bit value as an integer: 1 for an open parenthesis, 0 for a close. -/
def bitv (B : Nat → Bool) (j : Nat) : Int := if B j then 1 else 0

/-- Two's-complement wrap of an integer into the `int8_t` range `[-128,127]`. -/
def i8 (x : Int) : Int := (x + 128) % 256 - 128

/-- Two's-complement wrap of an integer into the `int16_t` range. -/
def i16 (x : Int) : Int := (x + 32768) % 65536 - 32768

/-- Smallest `h` with `c ≤ 2 ^ h`: the exact value of the source's
floating-point `ceil(log c / log 2)` (`heigh` and `p_level` computations). -/
def heighOf (c : Nat) : Nat :=
  ((List.range 64).filter (fun h => decide (c ≤ 2 ^ h))).headD 64

/-- Strict let-binding on `Int`: forces the value to a constructor before
continuing.  Semantically the identity (`seqInt_eq`); it models C's eager
evaluation of each assignment, and keeps kernel evaluation of the loops
iterative instead of building deep thunk chains. -/
def seqInt (x : Int) (f : Int → α) : α :=
  match x with
  | .ofNat n => f (.ofNat n)
  | .negSucc n => f (.negSucc n)

theorem seqInt_eq (x : Int) (f : Int → α) : seqInt x f = f x := by
  cases x <;> rfl

/-- Running-excess loop of the naive `excess`. -/
def excessGo (B : Nat → Bool) : List Nat → Int → Int
  | [], a => a
  | j :: r, a => seqInt (a + 2 * bitv B j - 1) (excessGo B r)

/-- Naive global excess at position `i`:
`excess(i) = #opens − #closes in B[0..i]` (spec §3). -/
def excess (B : Nat → Bool) (i : Nat) : Int :=
  excessGo B (List.range (i + 1)) 0

/-- The four summary arrays during construction (`e_prime` has `C` entries,
the others `C + offset`). -/
structure Prims where
  e_prime : List Int
  m_prime : List Int
  M_prime : List Int
  n_prime : List Int

/-- The finished index: the arrays plus the tree-shape constants. -/
structure STree where
  e_prime : List Int
  m_prime : List Int
  M_prime : List Int
  n_prime : List Int
  heigh : Nat
  offset : Nat
  num_chunks : Nat

def dummyST : STree := ⟨[], [], [], [], 0, 0, 0⟩

/-- Number of chunks the thread processes (`chunk_limit` in `st_create`):
the last thread may process fewer chunks. -/
def threadChunks (C cpt p t : Nat) : Nat :=
  if t = p - 1 ∧ C % cpt ≠ 0 then C % cpt else cpt

/-- Lower/upper bit limits of a chunk (`llimit`/`ulimit` in `st_create`).
Only the last chunk of the last thread is clipped to `n`. -/
def chunkLims (n C cpt p t chunk limit : Nat) : Nat × Nat :=
  let ll := t * cpt * s + s * chunk
  if t = p - 1 ∧ chunk = limit - 1 ∧ n % (C * s) ≠ 0 then (ll, n)
  else
    let ul := t * cpt * s + s * (chunk + 1)
    (ll, if n < s then n else ul)

/-- The pass-1 symbol loop over one chunk: update `partial_excess` (`int16_t`,
`pe`) and the running chunk minimum/maximum/min-count; at the chunk's first
symbol (`symbol == llimit`) min and max are reseeded from the excess and
`num_mins` becomes 1. -/
def scanSyms (B : Nat → Bool) (llimit : Nat) :
    List Nat → Int → Int → Int → Int → Int × Int × Int × Int
  | [], pe, mn, mx, nm => (pe, mn, mx, nm)
  | symbol :: r, pe, mn, mx, nm =>
    seqInt (i16 (if B symbol then pe + 1 else pe - 1)) (fun pe2 =>
      if symbol = llimit then scanSyms B llimit r pe2 pe2 pe2 1
      else
        seqInt (if pe2 < mn then pe2 else mn) (fun mn2 =>
        seqInt (if pe2 > mx then pe2 else mx) (fun mx2 =>
        seqInt (if pe2 < mn then 1 else if pe2 = mn then i16 (nm + 1) else nm) (fun nm2 =>
          scanSyms B llimit r pe2 mn2 mx2 nm2))))

/-- Pass 1, one chunk of one thread: scan the chunk's bits and store
`e_prime[t*cpt+chunk]`, `m_prime/M_prime/n_prime[offset + t*cpt+chunk]`.
The running `(pe, min, max)` of the thread is carried to the next chunk;
`num_mins` restarts at 1 for each chunk. -/
def pass1Chunk (B : Nat → Bool) (n C cpt p offset t : Nat)
    (acc : Prims × Int × Int × Int) (chunk : Nat) : Prims × Int × Int × Int :=
  let pr := acc.1
  let limit := threadChunks C cpt p t
  let lims := chunkLims n C cpt p t chunk limit
  let fin := scanSyms B lims.1 (List.range' lims.1 (lims.2 - lims.1))
      acc.2.1 acc.2.2.1 acc.2.2.2 1
  let idx := t * cpt + chunk
  (⟨pr.e_prime.set idx fin.1,
    pr.m_prime.set (offset + idx) fin.2.1,
    pr.M_prime.set (offset + idx) fin.2.2.1,
    pr.n_prime.set (offset + idx) fin.2.2.2⟩,
   fin.1, fin.2.1, fin.2.2.1)

/-- Pass 1 (STEP 2.1): every thread scans its slice of chunks, starting from
excess 0 (worker-local values). -/
def pass1 (B : Nat → Bool) (n C cpt p offset : Nat) (pr : Prims) : Prims :=
  (List.range p).foldl (fun pr t =>
    ((List.range (threadChunks C cpt p t)).foldl
      (pass1Chunk B n C cpt p offset t) (pr, 0, 0, 0)).1) pr

/-- Pass 2 (STEP 2.2, first loop): sequential accumulation of the previous
slice's last-chunk excess, for threads `1 ≤ t < p − 1`. -/
def pass2 (cpt p : Nat) (pr : Prims) : Prims :=
  (List.range' 1 (p - 2)).foldl (fun pr t =>
    let idx := t * cpt + cpt - 1
    let v := i16 (pr.e_prime.getD idx 0 + pr.e_prime.getD ((t - 1) * cpt + cpt - 1) 0)
    { pr with e_prime := pr.e_prime.set idx v }) pr

/-- Pass 3 (STEP 2.2, parallel loop), one thread: add the previous slice's
boundary excess to the thread's `e_prime` entries (skipping the slice's last
chunk except for the last thread) and to all its `m_prime`/`M_prime` leaves. -/
def pass3Thread (cpt p offset t : Nat) (pr : Prims) : Prims :=
  let d := pr.e_prime.getD ((t - 1) * cpt + cpt - 1) 0
  (List.range cpt).foldl (fun pr chunk =>
    let i := t * cpt + chunk
    let pr :=
      if t = p - 1 ∨ chunk < cpt - 1 then
        { pr with e_prime := pr.e_prime.set i (i16 (pr.e_prime.getD i 0 + d)) }
      else pr
    { pr with
      m_prime := pr.m_prime.set (offset + i) (i16 (pr.m_prime.getD (offset + i) 0 + d)),
      M_prime := pr.M_prime.set (offset + i) (i16 (pr.M_prime.getD (offset + i) 0 + d)) }) pr

def pass3 (cpt p offset : Nat) (pr : Prims) : Prims :=
  (List.range' 1 (p - 1)).foldl (fun pr t => pass3Thread cpt p offset t pr) pr

/-- Internal-node combine (STEP 2.3): fold the children `lchild..rchild`,
stopping at the first child with `child ≥ bound` — the source's loop guard is
`(child <= rchild) && (child < n)` with `n` the BIT length, so `bound` is `n`
in the faithful model.  `setN` distinguishes the parallel subtree loop (which
assigns `n_prime[pos] = n_prime[child]` on the first child) from the
sequential top loop (which does not touch `n_prime` on the first child). -/
def combineAt (bound : Nat) (setN : Bool) (pos : Nat) (pr : Prims) : Prims :=
  let lchild := pos * k + 1
  let rchild := (pos + 1) * k
  ((List.range' lchild (rchild + 1 - lchild)).takeWhile (fun c => decide (c < bound))).foldl
    (fun pr child =>
      if child = lchild then
        let pr := { pr with
          m_prime := pr.m_prime.set pos (pr.m_prime.getD child 0),
          M_prime := pr.M_prime.set pos (pr.M_prime.getD child 0) }
        if setN then { pr with n_prime := pr.n_prime.set pos (pr.n_prime.getD child 0) }
        else pr
      else
        let mc := pr.m_prime.getD child 0
        let pr :=
          if mc < pr.m_prime.getD pos 0 then
            { pr with m_prime := pr.m_prime.set pos mc,
                      n_prime := pr.n_prime.set pos 1 }
          else if mc = pr.m_prime.getD pos 0 then
            { pr with n_prime := pr.n_prime.set pos (i16 (pr.n_prime.getD pos 0 + 1)) }
          else pr
        if pr.M_prime.getD child 0 > pr.M_prime.getD pos 0 then
          { pr with M_prime := pr.M_prime.set pos (pr.M_prime.getD child 0) }
        else pr) pr

/-- STEP 2.3, parallel part: each of the `k ^ p_level` subtrees fills its
levels from `heigh − 1` down to `p_level`. -/
def fillParallel (bound heigh p_level : Nat) (pr : Prims) : Prims :=
  (List.range (k ^ p_level)).foldl (fun pr subtree =>
    ((List.range (heigh - p_level)).map (fun idx => heigh - 1 - idx)).foldl (fun pr lvl =>
      let ncur := k ^ (lvl - p_level)
      (List.range ncur).foldl (fun pr node =>
        combineAt bound true (k ^ lvl - 1 + node + subtree * ncur) pr) pr) pr) pr

/-- STEP 2.3, sequential part: levels `p_level − 1` down to 0 (note the first
child does not initialise `n_prime` here). -/
def fillTop (bound p_level : Nat) (pr : Prims) : Prims :=
  ((List.range p_level).map (fun idx => p_level - 1 - idx)).foldl (fun pr lvl =>
    (List.range (k ^ lvl)).foldl (fun pr node =>
      combineAt bound false ((k ^ lvl - 1) / (k - 1) + node) pr) pr) pr

/-- The whole construction after the size guard.  `specSkip = false` is the
faithful model (fill guard `child < n`); `specSkip = true` replaces the guard
bound by `offset + C`, the populated array size, which is what the spec's
"children that fall beyond the populated leaf range are skipped" describes. -/
def buildCore (specSkip : Bool) (B : Nat → Bool) (n p : Nat) : STree :=
  let C := (n + s - 1) / s
  let heigh := heighOf C
  let offset := (k ^ heigh - 1) / (k - 1)
  let cpt := (C + p - 1) / p
  let pr0 : Prims := ⟨List.replicate C 0, List.replicate (C + offset) 0,
                      List.replicate (C + offset) 0, List.replicate (C + offset) 0⟩
  let pr1 := pass1 B n C cpt p offset pr0
  let pr2 := pass2 cpt p pr1
  let pr3 := pass3 cpt p offset pr2
  let p_level := heighOf p
  let bound := if specSkip then offset + C else n
  let pr4 := fillParallel bound heigh p_level pr3
  let pr5 := fillTop bound p_level pr4
  ⟨pr5.e_prime, pr5.m_prime, pr5.M_prime, pr5.n_prime, heigh, offset, C⟩

/-- `st_create(B, n)` with `p` workers: fails (error and `exit`) iff
`s >= n`; otherwise builds the arrays. -/
def st_create (B : Nat → Bool) (n p : Nat) : Option STree :=
  if s ≥ n then none else some (buildCore false B n p)

/-- Variant of `st_create` whose internal-node fill skips children beyond the
populated `offset + C` slots, following the spec's words (§4.2 pass 4); used
only to compare against the faithful model. -/
def st_create_skipfill (B : Nat → Bool) (n p : Nat) : Option STree :=
  if s ≥ n then none else some (buildCore true B n p)

/-! ### Query path: lookup tables and `leaves_check` -/

/-- Population count of a byte. -/
def popcount8 (b : Nat) : Nat := (List.range 8).foldl (fun a t => a + b / 2 ^ t % 2) 0

/-- Modelled from the spec: the `word_sum` lookup table (external component
C2, `lookup_tables.c` is not under src/): `word_sum[b] = 2·popcount(b) − 8`,
the net excess change across the 8 bits of byte `b` (§6), with the sign fixed
so that `excess -= word_sum[b]` adds `Σ (1 − 2·bit)` over the byte. -/
def word_sum (b : Nat) : Int := 2 * (popcount8 b : Int) - 8

/-- Cumulative `Σ_{t ≤ x} (1 − 2·bit_t(b))` over the byte `b`, LSB first. -/
def byteExcAt (b x : Nat) : Int :=
  (List.range (x + 1)).foldl (fun a t => a + 1 - 2 * ((b / 2 ^ t % 2 : Nat) : Int)) 0

/-- Modelled from the spec: the `near_fwd_pos` lookup table (external
component C2): for a starting excess `e ∈ [0,16]` and byte `b`, the first bit
position `x` (LSB→MSB) where the running excess, starting at `e − 8`, reaches
0; a value `≥ 8` (here: 8) means not found in this byte (§6). -/
def near_fwd_pos (e b : Nat) : Int :=
  match (List.range 8).find? (fun x => decide ((e : Int) - 8 + byteExcAt b x = 0)) with
  | some x => (x : Int)
  | none => 8

/-- Modelled from the spec: the byte fetch
`(*(B->words+(j>>5)) >> (j&0xFF)) & 0xFF` reads, through the external packed
bit-array container (component C1, §6 `word` contract), the 8 bits of `B`
starting at bit `j`, LSB first. -/
def byteAt (B : Nat → Bool) (j : Nat) : Nat :=
  (List.range 8).foldl (fun a t => a + if B (j + t) then 2 ^ t else 0) 0

/-- Bit-by-bit phase of `leaves_check`: `excess += 1-2*bit` in `int8_t`,
return the position as soon as the excess reaches 0. -/
def bitScan (B : Nat → Bool) (e : Int) : List Nat → Sum Nat Int
  | [] => Sum.inr e
  | j :: r =>
    seqInt (i8 (e + 1 - 2 * bitv B j)) (fun e2 =>
      if e2 = 0 then Sum.inl j else bitScan B e2 r)

/-- `bitScan` without the `int8_t` wrap: the mathematical running excess.
Used only to state what the 8-bit arithmetic computes when it stays in
range. -/
def bitScanZ (B : Nat → Bool) (e : Int) : List Nat → Sum Nat Int
  | [] => Sum.inr e
  | j :: r =>
    seqInt (e + 1 - 2 * bitv B j) (fun e2 =>
      if e2 = 0 then Sum.inl j else bitScanZ B e2 r)

/-- Decides whether every intermediate value of the unwrapped running excess
stays inside the `int8_t` range `[-128,127]`. -/
def chain8 (B : Nat → Bool) : Int → List Nat → Bool
  | _, [] => true
  | e, j :: r =>
    let e2 := e + 1 - 2 * bitv B j
    decide (-128 ≤ e2) && decide (e2 ≤ 127) && chain8 B e2 r

/-- Byte-by-byte phase of `leaves_check`: probe `near_fwd_pos` when the
(table-domain) excess is in `[0,16]`, otherwise just advance the excess by
`-word_sum[byte]`, all in `int8_t`. -/
def byteScan (B : Nat → Bool) (e : Int) : List Nat → Sum Nat Int
  | [] => Sum.inr e
  | j :: r =>
    let hit : Option Nat :=
      if 0 ≤ e ∧ e ≤ 16 then
        let x := near_fwd_pos e.toNat (byteAt B j)
        if x < 8 then some (j + x.toNat) else none
      else none
    match hit with
    | some jx => Sum.inl jx
    | none => seqInt (i8 (e - word_sum (byteAt B j))) (fun e2 => byteScan B e2 r)

/-- `leaves_check(B, i, d)`: scan `(i, end-of-chunk)` for running excess 0
(seeded with `d`), in three phases (bit, byte, bit); `i − 1` when not found.
All excess arithmetic is in `int8_t` (`i8`). -/
def leaves_check (B : Nat → Bool) (i : Nat) (d : Int) : Int :=
  let endp := (i / s + 1) * s
  let llimit := ((i + 7) / 8) * 8
  let rlimit := (endp / 8) * 8
  match bitScan B d (List.range' (i + 1) (min endp llimit - (i + 1))) with
  | Sum.inl j => (j : Int)
  | Sum.inr e0 =>
    let e1 := if llimit = i then i8 (e0 + 9) else i8 (e0 + 8)
    match byteScan B e1 (List.range' llimit ((rlimit - llimit) / 8) 8) with
    | Sum.inl j => (j : Int)
    | Sum.inr e2 =>
      let e3 := i8 (e2 - 8)
      match bitScan B e3 (List.range' (max llimit rlimit) (endp - max llimit rlimit)) with
      | Sum.inl j => (j : Int)
      | Sum.inr _ => (i : Int) - 1

/-! ### Query path: `fwd_search` and `find_close` -/

/-- Result of a `fwd_search` call.  `found j` models `return j`;
`missingReturn` models falling off the end of the non-void function without a
`return` statement (undefined return value in C); `fatal` models
`exit(EXIT_FAILURE)` in the descent (and, unreachably for the inputs used
here, fuel exhaustion of the modelled loops). -/
inductive QRes where
  | found (j : Int)
  | missingReturn
  | fatal
deriving DecidableEq

/-- The `prev_excess` loop of `fwd_search` Case 2:
`for (j = chunk*s; j <= i; j++) prev_excess += 1 - 2*bit(j)` in `int8_t`. -/
def prevScan (B : Nat → Bool) : List Nat → Int → Int
  | [], e => e
  | j :: r, e => seqInt (i8 (e + 1 - 2 * bitv B j)) (prevScan B r)

/-- The interval test `m_prime[idx] <= t && t <= M_prime[idx]` used by the
sibling scan (Case 2, with `idx = chunk + j`) and by the climb and descent
(Case 3). -/
def sibling_in_interval (mP MP : List Int) (idx : Nat) (t : Int) : Bool :=
  decide (mP.getD idx 0 ≤ t) && decide (t ≤ MP.getD idx 0)

/-- The upward climb of Case 3: while not at the root, from a left child probe
the right sibling and stop there if its interval contains `t`, else move to
the parent.  Tree navigation (`is_root`, `is_left_child`, `right_sibling`,
`parent`) is modelled from the spec (§4.3; `binary_trees.h` is not under
src/): root is 0, children of `v` are `2v+1, 2v+2`.  Structural fuel makes
the strictly decreasing loop a Lean-structural recursion; callers pass fuel
larger than the start node, so it never runs out. -/
def climb (mP MP : List Int) (t : Int) : Nat → Nat → Nat
  | 0, node => node
  | _ + 1, 0 => 0
  | fuel + 1, node + 1 =>
    let v := node + 1
    if v % 2 = 1 then
      if sibling_in_interval mP MP (v + 1) t then v + 1
      else climb mP MP t fuel ((v + 1 - 1) / 2)
    else climb mP MP t fuel ((v - 1) / 2)

/-- The downward walk of Case 3: while not a leaf (`node < offset`, spec
§4.3: `is_leaf(v) ≡ v ≥ I`), go to the left child if its interval contains
`t`, else to the right child, and `exit(EXIT_FAILURE)` (`none`) if neither
contains `t`. -/
def descend (mP MP : List Int) (offs : Nat) (t : Int) : Nat → Nat → Option Nat
  | 0, _ => none
  | fuel + 1, node =>
    if offs ≤ node then some node
    else
      let l := node * k + 1
      if sibling_in_interval mP MP l t then descend mP MP offs t fuel l
      else if sibling_in_interval mP MP (l + 1) t then descend mP MP offs t fuel (l + 1)
      else none

/-- `fwd_search(B, i, excess)`.  Case 1: intra-chunk `leaves_check`.  Case 2:
recompute the excess of `[chunk·s .. i]` in `int8_t`, overwrite `excess` with
the (negated) global excess at `i`, and for the single right sibling (k = 2,
only when `chunk` is even) test `m_prime[chunk+j] ≤ -excess-1 ≤
M_prime[chunk+j]` and scan that sibling's chunk.  Case 3: climb from
`(k^heigh - 1) + j - 1` (with `j = 2` after the sibling loop), then descend
and scan; if the climb reaches the root, control falls off the end of the
function (`missingReturn`). -/
def fwd_search (st : STree) (B : Nat → Bool) (i : Nat) (d : Int) : QRes :=
  let chunk := i / s
  let out := leaves_check B i d
  if out > (i : Int) then .found out
  else
    let prev := prevScan B (List.range' (chunk * s) (i + 1 - chunk * s)) 0
    let ex := if chunk = 0 then prev else i8 (-(st.e_prime.getD (chunk - 1) 0) + prev)
    let t := -ex - 1
    let pos_med_block := chunk % k
    let sibRes : Option Int :=
      if pos_med_block + 1 < k then
        if sibling_in_interval st.m_prime st.M_prime (chunk + 1) t then
          let out2 := leaves_check B (s * (chunk + 1)) ex
          if out2 > ((s * (chunk + 1) : Nat) : Int) then some out2 else none
        else none
      else none
    match sibRes with
    | some j => .found j
    | none =>
      let node0 := k ^ st.heigh - 1 + 2 - 1
      let stopN := climb st.m_prime st.M_prime t (node0 + 2) node0
      if stopN = 0 then .missingReturn
      else
        match descend st.m_prime st.M_prime st.offset t (st.heigh + 2) stopN with
        | none => .fatal
        | some leaf =>
          let chunk2 := leaf - st.offset
          let ex2 := i8 (-(st.e_prime.getD (chunk2 - 1) 0) + ex)
          .found (leaves_check B (s * chunk2) ex2)

/-- Variant of `fwd_search` whose Case-2 sibling test indexes the sibling's
leaf entry `m_prime[offset + chunk + j]` (the spec's reading in §4.4 /
§9), instead of the source's flat `m_prime[chunk + j]`; used only to compare
against the faithful model. -/
def fwd_search_leafidx (st : STree) (B : Nat → Bool) (i : Nat) (d : Int) : QRes :=
  let chunk := i / s
  let out := leaves_check B i d
  if out > (i : Int) then .found out
  else
    let prev := prevScan B (List.range' (chunk * s) (i + 1 - chunk * s)) 0
    let ex := if chunk = 0 then prev else i8 (-(st.e_prime.getD (chunk - 1) 0) + prev)
    let t := -ex - 1
    let pos_med_block := chunk % k
    let sibRes : Option Int :=
      if pos_med_block + 1 < k then
        if sibling_in_interval st.m_prime st.M_prime (st.offset + chunk + 1) t then
          let out2 := leaves_check B (s * (chunk + 1)) ex
          if out2 > ((s * (chunk + 1) : Nat) : Int) then some out2 else none
        else none
      else none
    match sibRes with
    | some j => .found j
    | none =>
      let node0 := k ^ st.heigh - 1 + 2 - 1
      let stopN := climb st.m_prime st.M_prime t (node0 + 2) node0
      if stopN = 0 then .missingReturn
      else
        match descend st.m_prime st.M_prime st.offset t (st.heigh + 2) stopN with
        | none => .fatal
        | some leaf =>
          let chunk2 := leaf - st.offset
          let ex2 := i8 (-(st.e_prime.getD (chunk2 - 1) 0) + ex)
          .found (leaves_check B (s * chunk2) ex2)

/-- `find_close(B, i) = fwd_search(B, i, -1)`. -/
def find_close (st : STree) (B : Nat → Bool) (i : Nat) : QRes :=
  fwd_search st B i (-1)

/-- Reference loop for the naive forward search: running excess relative to
`i`, first position where it equals `d`. -/
def fwdSpecGo (B : Nat → Bool) (d : Int) : Int → List Nat → Option Nat
  | _, [] => none
  | e, j :: r =>
    seqInt (e + 2 * bitv B j - 1) (fun e2 =>
      if e2 = d then some j else fwdSpecGo B d e2 r)

/-- Naive forward search (spec §4.4, and the stack-matching reference of P4):
the smallest `j` with `i < j < n` and `excess(j) − excess(i) = d`. -/
def fwd_search_spec (B : Nat → Bool) (n i : Nat) (d : Int) : Option Nat :=
  fwdSpecGo B d 0 ((List.range n).drop (i + 1))

/-! ### Concrete inputs

All inputs are well-formed balanced-parentheses sequences (excess stays `≥ 0`
and ends at 0); positions past the stated length read as `false`. -/

/-- 256 opens followed by 256 closes, `n = 512` (a fully nested tree). -/
def B512o (j : Nat) : Bool := decide (j < 256)

/-- Alternating `()()…`, used with `n = 512`. -/
def Balt (j : Nat) : Bool := decide (j % 2 = 0)

/-- 2048 opens followed by 2048 closes, `n = 4096`: the spec's pathological
scenario 6. -/
def B4096 (j : Nat) : Bool := decide (j < 2048)

/-- 600 opens followed by 600 closes, `n = 1200` (so the short last chunk of
`C = 5` chunks is owned by thread 2 of 4, not the last thread). -/
def B1200 (j : Nat) : Bool := decide (j < 600)

/-- 384 opens followed by 384 closes, `n = 768` (`C = 3` chunks, so the
RMM-tree has an unpopulated leaf slot 6 = `offset + C`). -/
def B768 (j : Nat) : Bool := decide (j < 384)

/-- A crafted well-formed input with `n = 2048` (`C = 8`): chunk 0 ends at
excess 30, chunk 1 has excess range `[31, 286]`, chunks 2–3 return to 29/30,
chunks 4–7 descend to 0.  Chosen so that at `i = 255` the Case-2 target
`t = 29` lies inside the interval of flat slot 1 (an internal node) but
outside the interval of leaf slot `offset + 1` (chunk 1). -/
def B2048 (j : Nat) : Bool :=
  if j < 30 then true
  else if j < 256 then decide (j % 2 = 1)
  else if j < 512 then true
  else if j < 768 then false
  else if j < 1024 then decide (j % 2 = 1)
  else if j < 1054 then false
  else if j < 2048 then decide (j % 2 = 0)
  else false

/-- Index built from `B512o` (`n = 512`, one worker). -/
def st512o : STree := (st_create B512o 512 1).getD dummyST

/-- Index built from `Balt` (`n = 512`, one worker). -/
def st512a : STree := (st_create Balt 512 1).getD dummyST

/-- Index built from `Balt` (`n = 512`, two workers). -/
def st512a2 : STree := (st_create Balt 512 2).getD dummyST

/-- Index built from `B4096` (`n = 4096`, one worker). -/
def st4096 : STree := (st_create B4096 4096 1).getD dummyST

/-- Index built from `B2048` (`n = 2048`, one worker). -/
def st2048 : STree := (st_create B2048 2048 1).getD dummyST

/-! ### Claims -/

/-- C1: `find_close` is claimed to agree with the naive stack matcher on
every well-formed input and opening position.  It does not: on 256 opens
followed by 256 closes, `find_close(0)` returns 255 — an opening-parenthesis
position inside the all-open chunk — because the `int8_t` running excess of
`leaves_check`'s byte loop wraps and spuriously satisfies the `near_fwd_pos`
probe, while the naive matcher returns 511. -/
theorem C1_find_close_differs_from_naive :
    find_close st512o B512o 0 = QRes.found 255 ∧
    fwd_search_spec B512o 512 0 (-1) = some 511 ∧
    B512o 255 = true := by
  refine ⟨by decide, by decide, by decide⟩

/-- C2: the internal-node combine is claimed to reset `n_prime[v]` to
`n_prime[child]` on a new strict minimum and add `n_prime[child]` on an equal
minimum.  The code instead sets 1 and increments by 1: on alternating `()`
input of length 512 the root's two leaf children both have minimum 0 attained
128 times, yet the code computes `n_prime[root] = 129`, not `128 + 128`. -/
theorem C2_count_combine_evaluation :
    st512a.n_prime.getD 0 0 = 129 ∧
    st512a.m_prime.getD 1 0 = 0 ∧ st512a.m_prime.getD 2 0 = 0 ∧
    st512a.n_prime.getD 1 0 = 128 ∧ st512a.n_prime.getD 2 0 = 128 ∧
    st512a.n_prime.getD 0 0 ≠ st512a.n_prime.getD 1 0 + st512a.n_prime.getD 2 0 := by
  refine ⟨by decide, by decide, by decide, by decide, by decide, by decide⟩

/-- C3: `e_prime[c]` is claimed to equal the naive global excess at chunk
`c`'s end for every worker count.  With `n = 1200` (5 chunks) and 4 workers,
thread 2 owns the short last chunk and scans bits 1200–1279 past the input
(the `ulimit = n` clipping applies only to the last thread), so
`e_prime[4] = -80` while the naive excess at position 1199 is 0 (and one
worker yields 0). -/
theorem C3_eprime_depends_on_worker_count :
    ((st_create B1200 1200 4).getD dummyST).e_prime.getD 4 0 = -80 ∧
    ((st_create B1200 1200 1).getD dummyST).e_prime.getD 4 0 = 0 ∧
    excess B1200 1199 = 0 := by
  refine ⟨by decide, by decide, by decide⟩

/-- C4 counterexample: the Case-2 sibling test is claimed to index the
sibling's leaf entry of `m_prime`/`M_prime`.  On the index built from
`B2048`, at chunk 0 with target 29, the test the code performs (flat index
`chunk + j = 1`, an internal node) accepts while the sibling's leaf entry
(index `offset + chunk + j`) rejects — so the tested slot is not the leaf
entry. -/
theorem C4_sibling_test_is_not_leaf_indexed :
    sibling_in_interval st2048.m_prime st2048.M_prime (0 + 1) 29 = true ∧
    sibling_in_interval st2048.m_prime st2048.M_prime (st2048.offset + 0 + 1) 29 = false := by
  refine ⟨by decide, by decide⟩

/-- C4 (amended): the engine tests the target against
`m_prime[chunk + j]`/`M_prime[chunk + j]` — the flat array slot `chunk + j`,
an internal node in general — rather than the sibling's leaf entry
`m_prime[offset + chunk + j]`, and only on success runs the sibling scan;
with leaf indexing the query's outcome changes, as the two variants return
different positions on `B2048` at `i = 255`. -/
theorem C4_flat_vs_leaf_indexing_changes_result :
    fwd_search st2048 B2048 255 (-1) = QRes.found 482 ∧
    fwd_search_leafidx st2048 B2048 255 (-1) = QRes.found 767 := by
  refine ⟨by decide, by decide⟩

/-- C5 counterexample: on a query with no matching position (the last
position of the fully nested 512-bit input), the climb reaches the root and
`fwd_search` falls off the end of the function without executing any
`return` — it produces no sentinel value at all (the naive search confirms
no answer exists). -/
theorem C5_root_climb_returns_nothing :
    fwd_search st512o B512o 511 (-1) = QRes.missingReturn ∧
    fwd_search_spec B512o 512 511 (-1) = none := by
  refine ⟨by decide, by decide⟩

/-- C5 (amended): whenever the Case-3 climb reaches the root — here for every
target offset `d` at the last position of the fully nested input — control
falls off the end of `fwd_search` without a `return` statement (an undefined
return value in C, `missingReturn` in the model); no reserved not-found
sentinel is produced. -/
theorem C5_no_sentinel_for_any_target :
    ∀ d : Int, fwd_search st512o B512o 511 d = QRes.missingReturn := by
  intro d
  rfl

/-- C6: `st_create` fails (reports an error and produces no index) exactly
when the input length is at most the chunk size `s = 256`, for every input
and worker count; for `n > s` it builds the arrays. -/
theorem C6_create_fails_iff_input_too_small :
    ∀ (B : Nat → Bool) (n p : Nat), st_create B n p = none ↔ n ≤ s := by
  intro B n p
  unfold st_create
  split
  · simp only [true_iff]
    omega
  · simp only [reduceCtorEq, false_iff]
    omega

/-- C7 counterexample: `M_prime[root] = n/2` is claimed for every well-formed
input.  On the alternating input of length 512 the maximum excess is 1, so
`M_prime[root] = 1 ≠ 256 = n/2`. -/
theorem C7_root_max_not_half_length :
    st512a.M_prime.getD 0 0 = 1 ∧ (1 : Int) ≠ 512 / 2 := by
  refine ⟨by decide, by decide⟩

/-- C7 (amended): `m_prime[root] = 0` holds on these well-formed inputs and
`M_prime[root]` is the maximum excess, which is at most `n/2` but equals it
only for extremal inputs: for 2048 opens followed by 2048 closes
(`n = 4096`) the root holds `m' = 0`, `M' = 2048 = n/2`, `n' = 1`, while the
alternating 512-bit input has `m' = 0` and `M' = 1`. -/
theorem C7_root_aggregates_concrete :
    st4096.m_prime.getD 0 0 = 0 ∧ st4096.M_prime.getD 0 0 = 2048 ∧
    st4096.n_prime.getD 0 0 = 1 ∧
    st512a.m_prime.getD 0 0 = 0 ∧ st512a.M_prime.getD 0 0 = 1 := by
  refine ⟨by decide, by decide, by decide, by decide, by decide⟩

/-- C8: children beyond the populated leaf range are claimed to be skipped in
the internal-node fill.  The loop guard compares `child < n` against the BIT
length, so for `n = 768` (3 chunks, populated slots 0–5) node 2 also combines
the unpopulated slot 6 (past the allocation; 0 in the model): its min-count
becomes 2, whereas the spec-following guard (`child < offset + C`,
`st_create_skipfill`) yields 1. -/
theorem C8_fill_combines_unpopulated_slot :
    ((st_create B768 768 1).getD dummyST).n_prime.getD 2 0 = 2 ∧
    ((st_create_skipfill B768 768 1).getD dummyST).n_prime.getD 2 0 = 1 := by
  refine ⟨by decide, by decide⟩

/-- C9: construction is claimed to produce identical arrays for every worker
count.  On the alternating 512-bit input, the root's min-count is 129 with
one worker (computed by the parallel subtree fill) but 1 with two workers
(computed by the sequential top fill, which never initialises
`n_prime[root]` from its first child). -/
theorem C9_arrays_differ_across_worker_counts :
    st512a.n_prime.getD 0 0 = 129 ∧ st512a2.n_prime.getD 0 0 = 1 := by
  refine ⟨by decide, by decide⟩

/-- Wrap-free values: `i8` is the identity exactly on the `int8_t` range. -/
theorem i8_id : ∀ x : Int, -128 ≤ x → x ≤ 127 → i8 x = x := by
  intro x h1 h2
  unfold i8
  omega

/-- C10: the query-path excess arithmetic is 8-bit: `i8` (the wrap applied at
every step of `bitScan`, `byteScan`, `prevScan` and to the seeds of
`fwd_search`) maps onto `[-128,127]` preserving the value modulo `2^8`; the
bit-by-bit scan agrees with the unwrapped mathematical excess whenever every
intermediate value stays in `[-128,127]`; and on an all-open scan of 130
bits from seed −1 the wrapped accumulator reads 125 where the mathematical
excess is −131 — the arithmetic has wrapped modulo `2^8`. -/
theorem C10_int8_excess_arithmetic :
    (∀ x : Int, -128 ≤ i8 x ∧ i8 x ≤ 127 ∧ i8 x % 256 = x % 256) ∧
    (∀ (B : Nat → Bool) (d : Int) (js : List Nat),
      -128 ≤ d → d ≤ 127 → chain8 B d js = true →
      bitScan B d js = bitScanZ B d js) ∧
    (bitScan B512o (-1) (List.range' 1 130) = Sum.inr 125 ∧
     bitScanZ B512o (-1) (List.range' 1 130) = Sum.inr (-131)) := by
  refine ⟨?_, ?_, by decide, by decide⟩
  · intro x
    unfold i8
    omega
  · intro B d js
    induction js generalizing d with
    | nil => intro _ _ _; rfl
    | cons j r ih =>
      intro h1 h2 hc
      unfold chain8 at hc
      simp only [Bool.and_eq_true, decide_eq_true_eq] at hc
      unfold bitScan bitScanZ
      rw [seqInt_eq, seqInt_eq, i8_id _ hc.1.1 hc.1.2]
      split
      · rfl
      · exact ih _ hc.1.1 hc.1.2 hc.2

/-- Witness for C10: the in-range agreement applied at a concrete input. -/
theorem C10_int8_excess_arithmetic_witness :
    bitScan (fun _ => false) (-1) [5] = bitScanZ (fun _ => false) (-1) [5] :=
  C10_int8_excess_arithmetic.2.1 (fun _ => false) (-1) [5]
    (by decide) (by decide) (by decide)

end SEA
